import Mathlib

/-!
Verification of the type-graph resolution and artifact-generation engine in
`src/core/sol.ts` of plug-types.  That file holds two draft variants of the
generator: variant A (`generateSolidity`, lines 1-645) and variant B
(`getSolidity` / `generate`, lines 646-1408).  Helpers that are textually
identical in both drafts (`getPacketHashGetterName`, `getDigestGetterName`,
`getSignerGetterName`, `getEncodedValueFor`) are modelled once at top level;
the draft-specific parts live in namespaces `SolA` and `SolB`.

Modelling conventions:
* JavaScript strings are Lean `String`s; the template literals of the source
  are reproduced character by character for the Solidity implementation
  strings.  Documentation block comments and markdown page bodies are not
  reproduced (no claim concerns their text), but documentation paths are.
* A schema (`config.types`, a JS object walked with `Object.keys` in
  insertion order) is an association list in insertion order.
* JS `[...new Set(xs)]` on an array of tuple objects deduplicates by object
  identity, keeping first occurrences.  Object identity is modelled by an
  allocation counter threaded through the generation loop: every tuple the
  source allocates gets a fresh `alloc` number.
* The external collaborators (the `ethers` typed-data encoder, the
  `abitype/zod` type validator, keccak and signature recovery) are not part
  of the repository; they are modelled where a claim needs them, as
  documented at each definition.
-/

/-- A typed-data field (`TypedDataParameter`): a field name and a type tag. -/
structure FieldDef where
  name : String
  type : String
deriving DecidableEq, Repr

/-- A schema: type name to ordered field list, in `Object.keys` insertion
order. -/
abbrev Schema := List (String × List FieldDef)

/-- The `dangerous` options of the generator configuration
(`@/core/config`, outside `src/`); only the two fields `sol.ts` reads are
modelled. -/
structure Dangerous where
  useOverloads : Bool
  packetHashName : String → String

/-- The `contract` section of the configuration; only `name` is read by the
modelled functions. -/
structure ContractInfo where
  name : String

/-- The generator configuration, restricted to the fields `sol.ts` reads. -/
structure Config where
  contract : ContractInfo
  dangerous : Dangerous
  types : Schema

/-- Modelled from the spec: the default configuration (`@/core/config` and
`@/lib/constants` are not under `src/`).  The spec's NameResolver table gives
Qualified names `get<Type>Hash` / `get<Element>ArrayHash`, so the default
`packetHashName` transform is the identity and `useOverloads` is off. -/
def qualifiedConfig (types : Schema) : Config :=
  { contract := { name := "Plug" }
    dangerous := { useOverloads := false, packetHashName := fun s => s }
    types := types }

/-! ## JavaScript string primitives used by the source -/

/-- JS `String.prototype.includes`, on character lists. -/
def listIncludes (pat : List Char) : List Char → Bool
  | [] => pat.isEmpty
  | c :: rest => pat.isPrefixOf (c :: rest) || listIncludes pat rest

/-- JS `s.includes(pat)`. -/
def strIncludes (pat s : String) : Bool := listIncludes pat.data s.data

/-- JS `s.slice(0, s.length - 2)` (and `s.substr(0, s.length - 2)`): the
first `length - 2` characters. -/
def sliceDropLast2 (s : String) : String :=
  String.mk (s.data.take (s.data.length - 2))

/-- JS `s.replace(pat, "")` for a plain-string pattern: delete the first
occurrence of `pat`, if any. -/
def replaceOnceList (pat : List Char) : List Char → List Char
  | [] => []
  | c :: rest =>
    if pat.isPrefixOf (c :: rest) then (c :: rest).drop pat.length
    else c :: replaceOnceList pat rest

/-- JS `s.replace(pat, "")` on `String`. -/
def replaceOnce (pat s : String) : String :=
  String.mk (replaceOnceList pat.data s.data)

/-- First pass of the type-hash name transform:
`replace(/([a-z])([A-Z])/g, "$1_$2")`.  The regex consumes both matched
characters, but since the second character of a match (uppercase) can never
begin a new match (which needs lowercase), position-by-position insertion is
equivalent. -/
def snakePass1 : List Char → List Char
  | a :: b :: rest =>
    if a.isLower && b.isUpper then a :: '_' :: snakePass1 (b :: rest)
    else a :: snakePass1 (b :: rest)
  | l => l

/-- Second pass: `replace(/([A-Z])([A-Z])(?=[a-z])/g, "$1_$2")`.  A match
consumes its two uppercase characters; the character after them is lowercase
(the lookahead), so it cannot begin a further match and sliding insertion is
again equivalent. -/
def snakePass2 : List Char → List Char
  | a :: b :: c :: rest =>
    if a.isUpper && b.isUpper && c.isLower then a :: '_' :: snakePass2 (b :: c :: rest)
    else a :: snakePass2 (b :: c :: rest)
  | l => l

/-- Third pass: `replace(/([0-9])([A-Z])/g, "$1_$2")`. -/
def snakePass3 : List Char → List Char
  | a :: b :: rest =>
    if a.isDigit && b.isUpper then a :: '_' :: snakePass3 (b :: rest)
    else a :: snakePass3 (b :: rest)
  | l => l

/-- The upper-snake-case transform applied to type names in both drafts
(sol.ts lines 181-185, 299-303, 850-854, 966-970): the three insertion
passes followed by `toUpperCase()`. -/
def upperSnake (t : String) : String :=
  String.mk ((snakePass3 (snakePass2 (snakePass1 t.data))).map Char.toUpper)

/-- The type-hash constant name: transform plus `_TYPEHASH` suffix. -/
def typeHashConstName (t : String) : String := upperSnake t ++ "_TYPEHASH"

/-! ## Name resolvers (sol.ts lines 11-35, identical at 654-678) -/

/-- `getPacketHashGetterName` (sol.ts lines 11-23). -/
def getPacketHashGetterName (config : Config) (typeName : String) : String :=
  if strIncludes "[]" typeName then
    if config.dangerous.useOverloads then "getArrayHash"
    else "get" ++ config.dangerous.packetHashName (sliceDropLast2 typeName) ++ "ArrayHash"
  else
    if config.dangerous.useOverloads then "getHash"
    else "get" ++ config.dangerous.packetHashName typeName ++ "Hash"

/-- `getDigestGetterName` (sol.ts lines 25-29). -/
def getDigestGetterName (config : Config) (typeName : String) : String :=
  if config.dangerous.useOverloads then "getDigest"
  else "get" ++ config.dangerous.packetHashName typeName ++ "Digest"

/-- `getSignerGetterName` (sol.ts lines 31-35). -/
def getSignerGetterName (config : Config) (typeName : String) : String :=
  if config.dangerous.useOverloads then "getSigner"
  else "get" ++ config.dangerous.packetHashName typeName ++ "Signer"

/-- The scalar Solidity type tags: `address`, `bool`, `bytes`, `string`,
`bytes1`..`bytes32`, and `int`/`uint` with optional bit size 8, 16, ...,
256.  These are both the scalar members of the external `abitype/zod`
`TypedDataType` union (the literals plus `bytesRegex`/`integerRegex`) and
the tags the external ethers `TypedDataEncoder` has a base encoder for. -/
def solidityScalarTag (t : String) : Bool :=
  t == "address" || t == "bool" || t == "bytes" || t == "string" ||
  t == "int" || t == "uint" ||
  ((List.range 32).map (fun i => "bytes" ++ toString (i + 1))).contains t ||
  ((List.range 32).map (fun i => "int" ++ toString (8 * (i + 1)))).contains t ||
  ((List.range 32).map (fun i => "uint" ++ toString (8 * (i + 1)))).contains t

/-- Drop leading ASCII decimal digits. -/
def dropDigits : List Char → List Char
  | c :: rest => if c.isDigit then dropDigits rest else c :: rest
  | [] => []

/-- Peel one array-suffix group `[<digits>]` from the END of a type tag;
input and output are the reversed character list.  Returns `none` when the
tag does not end in a well-formed group. -/
def peelSuffixRev : List Char → Option (List Char)
  | ']' :: rest =>
    match dropDigits rest with
    | '[' :: rest2 => some rest2
    | _ => none
  | _ => none

/-- Peel as many trailing suffix groups as possible; `fuel` bounds the
recursion (each successful peel removes at least two characters, so the
list length is always enough fuel). -/
def peelSuffixesRev : Nat → List Char → List Char
  | 0, l => l
  | fuel + 1, l =>
    match peelSuffixRev l with
    | some rest => peelSuffixesRev fuel rest
    | none => l

/-- Models the `SolidityArrayWithoutTuple` member of the external
`abitype/zod` `TypedDataType` union (regex
`(address|bool|function|string|bytes<N>?|u?int<N>?)` followed by one or
more `[<optional digits>]` groups): a scalar non-tuple base followed by at
least one array suffix, so `uint256[]`, `bytes32[2]`, `string[]` or
`uint256[3][]` are accepted, while arrays of composite type names are not.
Peeling every trailing group is equivalent to the anchored regex because
the base alternation contains no bracket characters. -/
def isArrayWithoutTuple (t : String) : Bool :=
  match peelSuffixRev t.data.reverse with
  | some rest =>
    let base := String.mk (peelSuffixesRev rest.length rest).reverse
    solidityScalarTag base || base == "function"
  | none => false

/-- Models the external `abitype/zod` `TypedDataType` validator (an external
dependency, not repository code): the union of the scalar typed-data tags
and `SolidityArrayWithoutTuple`.  Primitive array tags such as `uint256[]`
are therefore accepted; composite type names and arrays of composite
element types are rejected. -/
def isTypedDataType (t : String) : Bool :=
  solidityScalarTag t || isArrayWithoutTuple t

/-- `getEncodedValueFor` (sol.ts lines 37-56, identical at 680-696). -/
def getEncodedValueFor (config : Config) (field : FieldDef) : String :=
  if field.type == "bytes" then "keccak256($input." ++ field.name ++ ")"
  else if field.type == "string" then "keccak256(bytes($input." ++ field.name ++ "))"
  else if isTypedDataType field.type then "$input." ++ field.name
  else getPacketHashGetterName config field.type ++ "($input." ++ field.name ++ ")"

/-! ## The external typed-data encoder's schema validation

Both drafts construct `new TypedDataEncoder(config.types)` before any
artifact is built (sol.ts lines 296 and 962); a schema the constructor
rejects aborts the run with zero artifacts.  The constructor is external
(ethers), so its validation is modelled here from its documented behaviour:
per declared type, in declaration order and field order, it rejects
duplicated field names, direct self references and field base types that
are neither encoder primitives nor declared type names; it then requires
exactly one primary type — a declared type that no other type references.
The deep circular-reference walk of the real constructor is not modelled
(no verified property concerns cyclic schemas), and malformed numeric
widths such as `uint7`, which the real constructor rejects with a
different message, are treated like any other non-primitive tag. -/

/-- The base type of a field tag in the encoder's reference graph: the
characters before the first `[` (ethers `fieldType.match(/^([^\x5b]*)/)`).
-/
def ethersBaseType (t : String) : String :=
  String.mk (t.data.takeWhile (fun c => c != '['))

/-- Models `getBaseEncoder` of the external ethers `TypedDataEncoder`: it
returns an encoder exactly for the scalar Solidity tags. -/
def ethersHasBaseEncoder (t : String) : Bool := solidityScalarTag t

/-- The per-field checks of the encoder constructor for one declared type:
duplicated field name, direct self reference, unknown base type. -/
def checkTypeFields (keys : List String) (name : String) :
    List String → List FieldDef → Except String Unit
  | _, [] => Except.ok ()
  | seen, f :: rest =>
    if seen.contains f.name then
      Except.error ("duplicated parameter name \"" ++ f.name ++ "\"")
    else
      let base := ethersBaseType f.type
      if base == name then
        Except.error ("circular type reference to \"" ++ base ++ "\"")
      else if ethersHasBaseEncoder base then
        checkTypeFields keys name (f.name :: seen) rest
      else if keys.contains base then
        checkTypeFields keys name (f.name :: seen) rest
      else
        Except.error ("unknown type: \"" ++ base ++ "\"")

/-- The per-field checks over every declared type, in declaration order. -/
def checkAllFields (keys : List String) : Schema → Except String Unit
  | [] => Except.ok ()
  | (name, fields) :: rest =>
    match checkTypeFields keys name [] fields with
    | Except.error e => Except.error e
    | Except.ok () => checkAllFields keys rest

/-- The declared type names referenced as the base of some field of some
declared type (the children of the constructor's `parents` graph). -/
def referencedBases (keys : List String) (types : Schema) : List String :=
  (types.map (fun p =>
    (p.2.map (fun f => ethersBaseType f.type)).filter
      (fun b => !ethersHasBaseEncoder b && keys.contains b))).flatten

/-- The full validation of the external `TypedDataEncoder` constructor:
field checks, then exactly one primary type. -/
def typedDataEncoderCheck (types : Schema) : Except String Unit :=
  let keys := types.map Prod.fst
  match checkAllFields keys types with
  | Except.error e => Except.error e
  | Except.ok () =>
    let primaries := keys.filter (fun k => !(referencedBases keys types).contains k)
    if primaries.length == 0 then Except.error "missing primary type"
    else if primaries.length == 1 then Except.ok ()
    else Except.error ("ambiguous primary types or unused types: " ++
      String.intercalate ", " primaries)


/-! ## Variant A (`generateSolidity`, sol.ts lines 1-645) -/

namespace SolA

/-- The opening segment of the packet-hash getter implementation emitted by
variant A's `getPacketHashGetters` (sol.ts lines 192-197), up to the
type-hash constant argument. -/
def packetHashImplIntroA (cfg : Config) (tn : String) : String :=
  "function " ++ getPacketHashGetterName cfg tn ++ "(\n      " ++
  cfg.contract.name ++ "Lib." ++ tn ++
  " memory $input\n) public pure virtual returns (bytes32 $hash) \x7b\n\t    $hash = keccak256(\n\t\t\tabi.encode(\n\t\t\t\t"

/-- The closing segment of the same template (sol.ts lines 199-201). -/
def packetHashImplCloseA : String := "\n\t\t\t)\n\t    );\n\x7d"

/-- The separator of `typeHashFields` (sol.ts line 189:
`.join(',\n\t\t        ')`). -/
def argSepA : String := ",\n\t\t        "

/-- The `implementation` template literal of variant A's
`getPacketHashGetters` for a non-array type (sol.ts lines 187-201): the hash
call takes the `_TYPEHASH` constant first, then every field's encoded form
in declared order. -/
def packetHashImplA (cfg : Config) (tn : String) (fields : List FieldDef) : String :=
  packetHashImplIntroA cfg tn ++ upperSnake tn ++ "_TYPEHASH," ++ "\n\t\t\t\t" ++
  String.intercalate argSepA (fields.map (getEncodedValueFor cfg)) ++
  packetHashImplCloseA

/-- The `implementation` template literal of variant A's
`getArrayPacketHashGetter` (sol.ts lines 74-95). -/
def arrayImplA (cfg : Config) (tn : String) : String :=
  "function " ++ getPacketHashGetterName cfg tn ++ "(\n\t\t" ++
  cfg.contract.name ++ "Lib." ++ tn ++
  " memory $input\n) public pure virtual returns (bytes32 $hash) \x7b\n\t\t/// @dev Load the stack.\n\t\tbytes memory encoded;\n\t\tuint256 i;\n\t\tuint256 length = $input.length;\n\n\t\t/// @dev Encode each item in the array.\n\t\tfor (i; i < length; i++) \x7b\n\t\t\tencoded = bytes.concat(\n\t\t\t\tencoded,\n\t\t\t\t" ++
  getPacketHashGetterName cfg (sliceDropLast2 tn) ++
  "($input[i])\n\t\t\t);\n\t\t\x7d\n    \n\t\t/// @dev Hash the encoded array.\n\t\t$hash = keccak256(encoded);\n\x7d"

/-- One struct declaration emitted by variant A's `generateSolidity`
(sol.ts lines 469-478); the preceding documentation block comment is not
reproduced.  Variant A's struct string has no closing brace of its own: the
assembler appends it when joining. -/
def structStringA (tn : String) (fields : List FieldDef) : String :=
  "\t\t    struct " ++ tn ++ " \x7b\n" ++
  String.join (fields.map (fun f => "\t" ++ f.type ++ " " ++ f.name ++ ";\n"))

/-- The struct artifacts of variant A's `generateSolidity` (sol.ts lines
290-490): the external `new TypedDataEncoder(config.types)` at line 296
runs before the loop, so a schema whose validation it rejects aborts the
run with zero artifacts; otherwise the loop emits one struct per declared
type (the `if (!type) return` guard cannot fire when the schema is an
association list). -/
def generateSolidityStructs (cfg : Config) : Except String (List String) :=
  match typedDataEncoderCheck cfg.types with
  | Except.error e => Except.error e
  | Except.ok () => Except.ok (cfg.types.map (fun p => structStringA p.1 p.2))

/-- The byte string accumulated by the loop of the emitted array getter:
`encoded` starts empty and each iteration appends the element getter's
result for the next entry (`encoded = bytes.concat(encoded, g($input[i]))`,
sol.ts lines 83-91).  The element getter `g` is the generated per-element
accessor, an external collaborator at this level. -/
def arrayLoopEncoded {α : Type} (g : α → List Nat) (input : List α) : List Nat :=
  input.foldl (fun acc x => acc ++ g x) []

/-- Denotation of the emitted array getter (sol.ts lines 74-95): hash the
accumulated concatenation exactly once (`$hash = keccak256(encoded)`), with
the hash primitive `keccak` an external collaborator. -/
def arrayGetterDenotation {α : Type} (keccak : List Nat → List Nat)
    (g : α → List Nat) (input : List α) : List Nat :=
  keccak (arrayLoopEncoded g input)

end SolA

/-! ## Variant B (`getSolidity` / `generate`, sol.ts lines 646-1408) -/

namespace SolB

/-- The `implementation` template literal of variant B's
`getPacketHashGetters` for a non-array type (sol.ts lines 845-859). -/
def packetGetterImplB (cfg : Config) (tn : String) (fields : List FieldDef) : String :=
  "\n    function " ++ getPacketHashGetterName cfg tn ++ "(\n        " ++
  cfg.contract.name ++ "Lib." ++ tn ++
  " memory $input\n    ) public pure virtual returns (bytes32 $hash) \x7b\n        $hash = keccak256(abi.encode(\n            " ++
  upperSnake tn ++ "_TYPEHASH," ++ "\n            " ++
  String.intercalate ",\n\t    " (fields.map (getEncodedValueFor cfg)) ++
  "\n        ));\n    \x7d"

/-- The `implementation` template literal of variant B's
`getArrayPacketHashGetter` (sol.ts lines 713-739). -/
def arrayImplB (cfg : Config) (tn : String) : String :=
  "function " ++ getPacketHashGetterName cfg tn ++ "(\n        " ++
  cfg.contract.name ++ "Lib." ++ tn ++
  " memory $input\n    )  public pure virtual returns (bytes32 $hash) \x7b\n        /// @dev Load the stack.\n        bytes memory encoded;\n        uint256 i;\n        uint256 length = $input.length;\n\n        /// @dev Encode each item in the array.\n        for (i; i < length;) \x7b\n            encoded = bytes.concat(\n                encoded,\n                " ++
  getPacketHashGetterName cfg (sliceDropLast2 tn) ++
  "($input[i])\n            );\n\n            unchecked \x7b i++; \x7d\n        \x7d\n        \n        /// @dev Hash the encoded array.\n        $hash = keccak256(encoded);\n    \x7d"

/-- The `digestImplementation` template literal (sol.ts lines 1160-1171). -/
def digestImplB (cfg : Config) (tn : String) : String :=
  "\n    function " ++ getDigestGetterName cfg tn ++ "(\n        " ++
  cfg.contract.name ++ "Lib." ++ tn ++
  " memory $input\n    ) public view virtual returns (bytes32 $digest) \x7b\n        $digest = keccak256(\n            abi.encodePacked(\n                \"\\x19\\x01\",\n                domainHash,\n                " ++
  getPacketHashGetterName cfg tn ++
  "($input)\n            )\n        );\n    \x7d"

/-- The `signerImplementation` template literal (sol.ts lines 1220-1230):
the digest getter it calls is named after `dataFieldName` — the name of the
first field whose name is not `signature` — and the payload it passes is
`$input.<dataFieldName>`. -/
def signerImplB (cfg : Config) (tn dataFieldName : String) : String :=
  "\n    function " ++ getSignerGetterName cfg tn ++ "(\n        " ++
  cfg.contract.name ++ "Lib." ++ tn ++
  " memory $input\n    ) public view virtual returns (address $signer) \x7b\n        $signer = " ++
  getDigestGetterName cfg dataFieldName ++ "($input." ++ dataFieldName ++
  ").recover(\n            $input.signature\n        );\n    \x7d"

/-- One struct declaration emitted by variant B's `getSolidity` (sol.ts
lines 1142-1152); the preceding documentation block comment is not
reproduced. -/
def structStringB (tn : String) (fields : List FieldDef) : String :=
  "    struct " ++ tn ++ " \x7b\n" ++
  String.join (fields.map (fun f => "\t" ++ f.type ++ " " ++ f.name ++ ";\n")) ++
  "    \x7d"

/-- One entry of the `packetHashGetters` array: the documentation path and
the implementation string, tagged with the allocation number modelling the
identity of the freshly created tuple object. -/
structure Getter where
  alloc : Nat
  path : String
  impl : String
deriving DecidableEq, Repr

/-- Path and implementation pushed by `getArrayPacketHashGetter`
(sol.ts lines 698-824). -/
def arrayGetterCoreB (cfg : Config) (tn : String) : String × String :=
  ("/hash-getters/" ++ getPacketHashGetterName cfg tn ++ ".md", arrayImplB cfg tn)

/-- Path and implementation pushed by `getPacketHashGetters` for a
non-array type name (sol.ts lines 921-931). -/
def packetGetterCoreB (cfg : Config) (tn : String) (fields : List FieldDef) :
    String × String :=
  ("/hash-getters/" ++ getPacketHashGetterName cfg tn ++ ".md",
   packetGetterImplB cfg tn fields)

/-- The entries freshly pushed by one call of `getPacketHashGetters`
(sol.ts lines 826-941): the getter for the type itself, then one array
getter per array-typed field. -/
def getPacketHashGettersCoreB (cfg : Config) (tn : String)
    (fields : List FieldDef) : List (String × String) :=
  (if strIncludes "[]" tn then [arrayGetterCoreB cfg tn]
   else [packetGetterCoreB cfg tn fields]) ++
  ((fields.filter (fun f => strIncludes "[]" f.type)).map
    (fun f => arrayGetterCoreB cfg f.type))

/-- Tag a block of pushed entries with consecutive fresh allocation
numbers: each `push` in the source creates a brand-new tuple object. -/
def allocate : Nat → List (String × String) → List Getter
  | _, [] => []
  | n, c :: cs => { alloc := n, path := c.1, impl := c.2 } :: allocate (n + 1) cs

/-- The accumulation of `packetHashGetters` across the `getSolidity` loop
(sol.ts lines 964-1270).  Each iteration calls
`packetHashGetters.push(...getPacketHashGetters(config, typeName, type,
packetHashGetters))` (line 1129): the inner call pushes the fresh entries
onto the array and returns the same array, whose spread is then pushed
again, so after each iteration the array is doubled. -/
def packetHashLoopB (cfg : Config) : Schema → List Getter → Nat → List Getter
  | [], acc, _ => acc
  | (tn, fields) :: rest, acc, ctr =>
    let fresh := allocate ctr (getPacketHashGettersCoreB cfg tn fields)
    packetHashLoopB cfg rest ((acc ++ fresh) ++ (acc ++ fresh)) (ctr + fresh.length)

/-- JS `[...new Set(xs)]` on an array of objects: deduplicate by object
identity (the allocation tag), keeping first occurrences in order. -/
def dedupByAlloc (seen : List Nat) : List Getter → List Getter
  | [] => []
  | g :: gs =>
    if seen.contains g.alloc then dedupByAlloc seen gs
    else g :: dedupByAlloc (g.alloc :: seen) gs

/-- `uniquePacketHashGetters` as returned by `getSolidity` (sol.ts lines
1273, 1280): the external `new TypedDataEncoder(config.types)` at line 962
runs before the loop, so a schema whose validation it rejects (for example
a multi-rooted one, with `ambiguous primary types`) aborts the run before
any getter is pushed. -/
def getSolidityPacketHashGetters (cfg : Config) : Except String (List Getter) :=
  match typedDataEncoderCheck cfg.types with
  | Except.error e => Except.error e
  | Except.ok () => Except.ok (dedupByAlloc [] (packetHashLoopB cfg cfg.types [] 0))

/-- `typeKeys` (sol.ts lines 947-949): the type names `K` such that
`Live<K>` is also declared. -/
def typeKeysOf (types : Schema) : List String :=
  (types.map Prod.fst).filter
    (fun k => (types.map Prod.fst).contains ("Live" ++ k))

/-- `signerKeys` (sol.ts lines 951-953): the type names whose name with the
first `Live` deleted is also declared. -/
def signerKeysOf (types : Schema) : List String :=
  (types.map Prod.fst).filter
    (fun k => (types.map Prod.fst).contains (replaceOnce "Live" k))

/-- `dataFieldName` (sol.ts lines 1212-1213): the name of the first field
whose name is not `signature`; when every field is named `signature` the JS
template interpolates the undefined value as the text `undefined`. -/
def dataFieldNameOf (fields : List FieldDef) : String :=
  match fields.find? (fun f => f.name != "signature") with
  | some f => f.name
  | none => "undefined"

/-- The digest getter entries pushed by the `getSolidity` loop (sol.ts
lines 1198-1209): one per type whose name is in `typeKeys`, guarded by the
external encoder construction at line 962, which aborts the run before any
push when it rejects the schema.  Every pushed tuple is fresh and pushed
once, so the closing `new Set` is the identity here and needs no
allocation tags. -/
def getSolidityDigestGetters (cfg : Config) : Except String (List (String × String)) :=
  match typedDataEncoderCheck cfg.types with
  | Except.error e => Except.error e
  | Except.ok () =>
    Except.ok ((cfg.types.filter (fun p => (typeKeysOf cfg.types).contains p.1)).map
      (fun p => ("/digest-getters/" ++ getDigestGetterName cfg p.1 ++ ".md",
                 digestImplB cfg p.1)))

/-- The signer getter entries pushed by the `getSolidity` loop (sol.ts
lines 1211-1269): one per type that has some field named `signature` and
whose name is in `signerKeys`, guarded by the same external encoder
construction at line 962. -/
def getSoliditySignerGetters (cfg : Config) : Except String (List (String × String)) :=
  match typedDataEncoderCheck cfg.types with
  | Except.error e => Except.error e
  | Except.ok () =>
    Except.ok ((cfg.types.filter (fun p =>
        p.2.any (fun f => f.name == "signature") &&
        (signerKeysOf cfg.types).contains p.1)).map
      (fun p => ("/signer-getters/" ++ getSignerGetterName cfg p.1 ++ ".md",
                 signerImplB cfg p.1 (dataFieldNameOf p.2))))

/-- The struct components of the `results` list built by the `getSolidity`
loop: one per declared type. -/
def getSolidityStructs (cfg : Config) : List String :=
  cfg.types.map (fun p => structStringB p.1 p.2)

/-- Modelled from the spec: `constants.config` (from `@/lib/constants`, not
under `src/`) is the fixed baseline configuration merged in front of the
caller's types.  Its schema is modelled as declaring `EIP712Domain` with
the four fields the generated `_initializeSocket` passes to it (sol.ts
lines 1379-1386). -/
def constantsConfigTypes : Schema :=
  [("EIP712Domain",
    [⟨"name", "string"⟩, ⟨"version", "string"⟩, ⟨"chainId", "uint256"⟩,
     ⟨"verifyingContract", "address"⟩])]

/-- The configuration `{...constants.config, contract: config.contract}`
built by `generate` (sol.ts lines 1291-1294). -/
def baselineConfig (cfg : Config) : Config :=
  { contract := cfg.contract
    dangerous := { useOverloads := false, packetHashName := fun s => s }
    types := constantsConfigTypes }

/-- The struct components of `combinedSetup` in `generate` (sol.ts lines
1305, 1338-1344): baseline structs followed by extension structs, plain
concatenation with no collision check anywhere in `generate`. -/
def generateCombinedStructs (cfg : Config) : List String :=
  getSolidityStructs (baselineConfig cfg) ++ getSolidityStructs cfg

end SolB

/-- A schema in which two distinct types (`Alpha`, `Beta`) each contain a
field of type `Foo[]`, exercising getter deduplication.  It is
single-rooted — `Root` references `Alpha` and `Beta`, which reference
`Foo` — so the external encoder's primary-type validation accepts it and
the run reaches the getter accumulation. -/
def dedupSchema : Schema :=
  [("Root", [⟨"alpha", "Alpha"⟩, ⟨"beta", "Beta"⟩]),
   ("Alpha", [⟨"a", "Foo[]"⟩]), ("Beta", [⟨"b", "Foo[]"⟩]),
   ("Foo", [⟨"x", "uint256"⟩])]

/-- A schema exercising digest/signer applicability: `Foo` is paired with
`LiveFoo` purely by the `Live` naming pattern, and `Bar` carries a
`signature` field plus two unrelated payload fields.  It is single-rooted
— `Root` references `LiveFoo` and `Bar` — so the external encoder's
primary-type validation accepts it and the run reaches the digest/signer
emission. -/
def pairingSchema : Schema :=
  [("Root", [⟨"live", "LiveFoo"⟩, ⟨"bar", "Bar"⟩]),
   ("Foo", [⟨"x", "uint256"⟩]),
   ("LiveFoo", [⟨"foo", "Foo"⟩, ⟨"signature", "bytes"⟩]),
   ("Bar", [⟨"a", "uint256"⟩, ⟨"b", "uint256"⟩, ⟨"signature", "bytes"⟩])]

/-- An extension schema declaring a type name (`EIP712Domain`) that the
baseline schema also declares. -/
def collisionSchema : Schema := [("EIP712Domain", [⟨"x", "uint256"⟩])]

/-- A schema whose only field references the undeclared type `Person`. -/
def danglingSchema : Schema := [("Mail", [⟨"from", "Person"⟩])]

/-! ## Facts about the string primitives -/

theorem isPrefixOf_self (l : List Char) : l.isPrefixOf l = true := by
  induction l with
  | nil => rfl
  | cons a as ih => simp [List.isPrefixOf, ih]

theorem isPrefixOf_append_self (l t : List Char) : l.isPrefixOf (l ++ t) = true := by
  induction l with
  | nil => cases t <;> rfl
  | cons a as ih => simp [List.isPrefixOf, ih]

theorem listIncludes_nil_pat (l : List Char) : listIncludes [] l = true := by
  cases l <;> simp [listIncludes, List.isPrefixOf, List.isEmpty]

theorem listIncludes_middle (pat l₁ l₂ : List Char) :
    listIncludes pat (l₁ ++ pat ++ l₂) = true := by
  induction l₁ with
  | nil =>
    cases pat with
    | nil => simpa using listIncludes_nil_pat l₂
    | cons c cs =>
      show ((c :: cs).isPrefixOf ((c :: cs) ++ l₂) || listIncludes (c :: cs) (cs ++ l₂)) = true
      rw [isPrefixOf_append_self]
      simp
  | cons c cs ih =>
    show (pat.isPrefixOf (c :: (cs ++ pat ++ l₂)) || listIncludes pat (cs ++ pat ++ l₂)) = true
    rw [ih]
    simp

theorem listIncludes_suffix (pat l : List Char) : listIncludes pat (l ++ pat) = true := by
  have h := listIncludes_middle pat l []
  rwa [List.append_nil] at h

theorem strIncludes_brackets (s : String) : strIncludes "[]" (s ++ "[]") = true := by
  obtain ⟨d⟩ := s
  show listIncludes ['[', ']'] (d ++ ['[', ']']) = true
  exact listIncludes_suffix _ _

theorem sliceDropLast2_append (s : String) : sliceDropLast2 (s ++ "[]") = s := by
  obtain ⟨d⟩ := s
  show String.mk ((d ++ ['[', ']']).take ((d ++ ['[', ']']).length - 2)) = String.mk d
  congr 1
  rw [List.length_append]
  have h := List.take_left d ['[', ']']
  simp only [List.length_cons, List.length_nil] at h ⊢
  simp only [Nat.add_sub_cancel]
  exact h

theorem strIncludes_pre_pat_post (pat pre post : String) :
    strIncludes pat (pre ++ pat ++ post) = true := by
  show listIncludes pat.data (pre ++ pat ++ post).data = true
  simp only [String.data_append]
  exact listIncludes_middle _ _ _

theorem structStringB_marker (tn : String) (fs : List FieldDef) :
    strIncludes ("struct " ++ tn ++ " ") (SolB.structStringB tn fs) = true := by
  show listIncludes ("struct " ++ tn ++ " ").data (SolB.structStringB tn fs).data = true
  have hgoal : (SolB.structStringB tn fs).data =
      ("    " : String).data ++ ("struct " ++ tn ++ " ").data ++
      (("\x7b\n" : String).data ++
        (String.join (fs.map (fun f => "\t" ++ f.type ++ " " ++ f.name ++ ";\n"))).data ++
        ("    \x7d" : String).data) := by
    simp only [SolB.structStringB, String.data_append]
    simp [List.append_assoc]
  rw [hgoal]
  exact listIncludes_middle _ _ _

theorem arrayLoopEncoded_eq_flatten {α : Type} (g : α → List Nat) (input : List α) :
    SolA.arrayLoopEncoded g input = (input.map g).flatten := by
  have h : ∀ (l : List α) (acc : List Nat),
      l.foldl (fun acc x => acc ++ g x) acc = acc ++ (l.map g).flatten := by
    intro l
    induction l with
    | nil => intro acc; simp
    | cons x xs ih => intro acc; simp [ih, List.append_assoc]
  have h2 := h input []
  simpa [SolA.arrayLoopEncoded] using h2

theorem map_fst_filter (q : String → Bool) (types : Schema) :
    (types.filter (fun p => q p.1)).map Prod.fst = (types.map Prod.fst).filter q := by
  induction types with
  | nil => rfl
  | cons p rest ih => cases hq : q p.1 <;> simp [List.filter_cons, hq, ih]

theorem contains_filter_keys (types : Schema) (q : String → Bool)
    (p : String × List FieldDef) (hp : p ∈ types) :
    ((types.map Prod.fst).filter q).contains p.1 = q p.1 := by
  have hmem : p.1 ∈ types.map Prod.fst := List.mem_map_of_mem Prod.fst hp
  cases hq : q p.1 with
  | true =>
    have hin : p.1 ∈ (types.map Prod.fst).filter q := List.mem_filter.mpr ⟨hmem, hq⟩
    simp [List.contains, List.elem_eq_mem, hin]
  | false =>
    have hout : p.1 ∉ (types.map Prod.fst).filter q := by
      intro hin
      have hcontra := (List.mem_filter.mp hin).2
      rw [hq] at hcontra
      exact Bool.false_ne_true hcontra
    simp [List.contains, List.elem_eq_mem, hout]

/-! ## Claim theorems -/

/-- C4 counterexample: a field of type `uint256[]` — an array of a
primitive element type — is accepted by the typed-data validator (the
`SolidityArrayWithoutTuple` member of the union), so `getEncodedValueFor`
includes it as the raw field value, not as an invocation of the array-hash
getter, refuting the claim's "array of any element type (primitive or
composite) is encoded as an invocation of that type's own packet-hash
getter". -/
theorem primitive_array_encoded_raw :
    isTypedDataType "uint256[]" = true ∧
    getEncodedValueFor (qualifiedConfig []) ⟨"amounts", "uint256[]"⟩ =
      "$input.amounts" ∧
    getEncodedValueFor (qualifiedConfig []) ⟨"amounts", "uint256[]"⟩ ≠
      getPacketHashGetterName (qualifiedConfig []) "uint256[]" ++
        "($input.amounts)" := by
  refine ⟨by decide, by decide, by decide⟩

/-- C4 (amended): the per-field encoding rule is: free-form `bytes` and
`string` fields are pre-hashed (the emitted expression wraps the raw field
value in the hash primitive); every other validator-accepted tag — the
fixed-width primitives and also arrays (with optional fixed length,
possibly nested) of primitive element types — is included as the raw field
value unchanged; and only the remaining tags, composite type names and
arrays of composite element types, are encoded as an invocation of that
type's own packet-hash getter on the field value. -/
theorem encoded_value_rules (cfg : Config) (nm t : String) :
    getEncodedValueFor cfg ⟨nm, "bytes"⟩ = "keccak256($input." ++ nm ++ ")" ∧
    getEncodedValueFor cfg ⟨nm, "string"⟩ = "keccak256(bytes($input." ++ nm ++ "))" ∧
    (isTypedDataType t = true → t ≠ "bytes" → t ≠ "string" →
      getEncodedValueFor cfg ⟨nm, t⟩ = "$input." ++ nm) ∧
    (isTypedDataType t = false →
      getEncodedValueFor cfg ⟨nm, t⟩ =
        getPacketHashGetterName cfg t ++ "($input." ++ nm ++ ")") := by
  refine ⟨rfl, rfl, ?_, ?_⟩
  · intro h hb hs
    have hb' : (t == "bytes") = false := by
      cases hbe : t == "bytes" with
      | false => rfl
      | true => exact absurd (eq_of_beq hbe) hb
    have hs' : (t == "string") = false := by
      cases hse : t == "string" with
      | false => rfl
      | true => exact absurd (eq_of_beq hse) hs
    simp [getEncodedValueFor, hb', hs', h]
  · intro h
    have hb' : (t == "bytes") = false := by
      cases hbe : t == "bytes" with
      | false => rfl
      | true =>
        have he := eq_of_beq hbe
        subst he
        exact absurd h (by decide)
    have hs' : (t == "string") = false := by
      cases hse : t == "string" with
      | false => rfl
      | true =>
        have he := eq_of_beq hse
        subst he
        exact absurd h (by decide)
    simp [getEncodedValueFor, hb', hs', h]

/-- C4 witness: the rules evaluated at the fixed-width primitive `address`,
the validator-accepted primitive array `uint256[]` (raw), the composite
reference `Person` and the composite array `Person[]` (getter
invocations). -/
theorem encoded_value_rules_witness :
    isTypedDataType "address" = true ∧
    getEncodedValueFor (qualifiedConfig []) ⟨"from", "address"⟩ = "$input." ++ "from" ∧
    isTypedDataType "uint256[]" = true ∧
    getEncodedValueFor (qualifiedConfig []) ⟨"from", "uint256[]"⟩ = "$input." ++ "from" ∧
    isTypedDataType "Person" = false ∧
    getEncodedValueFor (qualifiedConfig []) ⟨"from", "Person"⟩ =
      getPacketHashGetterName (qualifiedConfig []) "Person" ++ "($input." ++ "from" ++ ")" ∧
    isTypedDataType "Person[]" = false ∧
    getEncodedValueFor (qualifiedConfig []) ⟨"from", "Person[]"⟩ =
      getPacketHashGetterName (qualifiedConfig []) "Person[]" ++ "($input." ++ "from" ++ ")" :=
  ⟨by decide,
   (encoded_value_rules (qualifiedConfig []) "from" "address").2.2.1 (by decide)
     (by decide) (by decide),
   by decide,
   (encoded_value_rules (qualifiedConfig []) "from" "uint256[]").2.2.1 (by decide)
     (by decide) (by decide),
   by decide,
   (encoded_value_rules (qualifiedConfig []) "from" "Person").2.2.2 (by decide),
   by decide,
   (encoded_value_rules (qualifiedConfig []) "from" "Person[]").2.2.2 (by decide)⟩

/-- C6 counterexample: the upper-snake transform is not injective — the
distinct declarable type names `FooBar` and `Foo_bar` derive the same
`_TYPEHASH` constant name, so the claimed injectivity over every merged
schema fails on a schema declaring both. -/
theorem typehash_name_collision :
    typeHashConstName "FooBar" = typeHashConstName "Foo_bar" ∧
    ("FooBar" : String) ≠ "Foo_bar" := by
  constructor <;> decide

/-- C6 (amended): the type-hash constant name is the upper-snake-case
transform of the type name followed by `_TYPEHASH` (e.g. `LivePlugs`
becomes `LIVE_PLUGS_TYPEHASH`, `EIP712Domain` becomes
`EIP712_DOMAIN_TYPEHASH`, `JSONData` becomes `JSON_DATA_TYPEHASH`), but the
transform is not injective on distinct names and no collision check is
performed, so injectivity over the merged schema is a precondition on the
schema, not a property the generator guarantees. -/
theorem typehash_name_formula :
    (∀ t : String, typeHashConstName t = upperSnake t ++ "_TYPEHASH") ∧
    typeHashConstName "LivePlugs" = "LIVE_PLUGS_TYPEHASH" ∧
    typeHashConstName "EIP712Domain" = "EIP712_DOMAIN_TYPEHASH" ∧
    typeHashConstName "JSONData" = "JSON_DATA_TYPEHASH" ∧
    ∃ a b : String, a ≠ b ∧ typeHashConstName a = typeHashConstName b :=
  ⟨fun _ => rfl, by decide, by decide, by decide,
   "FooBar", "Foo_bar", by decide, by decide⟩

/-- C7: packet-hash getter naming follows the mode switch exactly — for a
name of the form `<Element>[]`, Overloaded mode yields the shared
`getArrayHash` and Qualified mode yields `get<Element>ArrayHash`; for a
name without the array marker, Overloaded mode yields the shared `getHash`
and Qualified mode yields `get<Type>Hash`. -/
theorem packet_hash_getter_naming (cfg : Config)
    (hid : cfg.dangerous.packetHashName = fun s => s)
    (elem t : String) (ht : strIncludes "[]" t = false) :
    (cfg.dangerous.useOverloads = true →
      getPacketHashGetterName cfg (elem ++ "[]") = "getArrayHash" ∧
      getPacketHashGetterName cfg t = "getHash") ∧
    (cfg.dangerous.useOverloads = false →
      getPacketHashGetterName cfg (elem ++ "[]") = "get" ++ elem ++ "ArrayHash" ∧
      getPacketHashGetterName cfg t = "get" ++ t ++ "Hash") := by
  constructor <;> intro hov <;> constructor <;>
    simp [getPacketHashGetterName, strIncludes_brackets, sliceDropLast2_append, ht, hov, hid]

/-- C7 witness: the naming theorem applied to the element `Plug` in
Qualified mode. -/
theorem packet_hash_getter_naming_witness :
    strIncludes "[]" "Plug" = false ∧
    getPacketHashGetterName (qualifiedConfig []) ("Plug" ++ "[]") =
      "get" ++ "Plug" ++ "ArrayHash" ∧
    getPacketHashGetterName (qualifiedConfig []) "Plug" = "get" ++ "Plug" ++ "Hash" :=
  ⟨by decide,
   (packet_hash_getter_naming (qualifiedConfig []) rfl "Plug" "Plug" (by decide)).2 rfl⟩

/-- C8: for a non-array type, the emitted packet-hash getter body hashes the
type's `_TYPEHASH` constant identifier followed by each field's encoded
form, joined in declared field order — the i-th encoded argument of the
emitted hash call is the encoding of the i-th declared field. -/
theorem packet_hash_field_order (cfg : Config) (tn : String) (fields : List FieldDef) :
    SolA.packetHashImplA cfg tn fields =
      SolA.packetHashImplIntroA cfg tn ++ upperSnake tn ++ "_TYPEHASH," ++ "\n\t\t\t\t" ++
      String.intercalate SolA.argSepA (fields.map (getEncodedValueFor cfg)) ++
      SolA.packetHashImplCloseA ∧
    ∀ i (h : i < fields.length),
      (fields.map (getEncodedValueFor cfg)).get ⟨i, by simpa using h⟩ =
        getEncodedValueFor cfg (fields.get ⟨i, h⟩) := by
  refine ⟨rfl, ?_⟩
  intro i h
  simp [List.get_eq_getElem, List.getElem_map]

/-- C8 witness: the field-order property applied at both indices of a
two-field type. -/
theorem packet_hash_field_order_witness :
    (([⟨"from", "Person"⟩, ⟨"contents", "string"⟩] : List FieldDef).map
        (getEncodedValueFor (qualifiedConfig []))).get ⟨0, by decide⟩ =
      getEncodedValueFor (qualifiedConfig [])
        (([⟨"from", "Person"⟩, ⟨"contents", "string"⟩] : List FieldDef).get ⟨0, by decide⟩) ∧
    (([⟨"from", "Person"⟩, ⟨"contents", "string"⟩] : List FieldDef).map
        (getEncodedValueFor (qualifiedConfig []))).get ⟨1, by decide⟩ =
      getEncodedValueFor (qualifiedConfig [])
        (([⟨"from", "Person"⟩, ⟨"contents", "string"⟩] : List FieldDef).get ⟨1, by decide⟩) :=
  ⟨(packet_hash_field_order (qualifiedConfig []) "Mail"
      [⟨"from", "Person"⟩, ⟨"contents", "string"⟩]).2 0 (by decide),
   (packet_hash_field_order (qualifiedConfig []) "Mail"
      [⟨"from", "Person"⟩, ⟨"contents", "string"⟩]).2 1 (by decide)⟩

/-- C9: the function emitted by the array encoder generator for element
type `<Element>` names and invokes the element type's own getter on
`$input[i]` inside the loop and hashes the accumulated concatenation
exactly once after the loop; denotationally the loop concatenates the
per-element results in order and the getter returns the hash of that one
concatenation, so the empty input sequence yields the digest of the empty
byte string — no error, and (for an injective hash and a non-empty
zero-element encoding) not the digest of one zero-valued element. -/
theorem array_getter_semantics {α : Type} (cfg : Config) (elem : String)
    (keccak : List Nat → List Nat) (g : α → List Nat) (input : List α) (z : α)
    (hk : Function.Injective keccak) (hz : g z ≠ []) :
    SolA.arrayImplA cfg (elem ++ "[]") =
      "function " ++ getPacketHashGetterName cfg (elem ++ "[]") ++ "(\n\t\t" ++
      cfg.contract.name ++ "Lib." ++ (elem ++ "[]") ++
      " memory $input\n) public pure virtual returns (bytes32 $hash) \x7b\n\t\t/// @dev Load the stack.\n\t\tbytes memory encoded;\n\t\tuint256 i;\n\t\tuint256 length = $input.length;\n\n\t\t/// @dev Encode each item in the array.\n\t\tfor (i; i < length; i++) \x7b\n\t\t\tencoded = bytes.concat(\n\t\t\t\tencoded,\n\t\t\t\t" ++
      getPacketHashGetterName cfg elem ++
      "($input[i])\n\t\t\t);\n\t\t\x7d\n    \n\t\t/// @dev Hash the encoded array.\n\t\t$hash = keccak256(encoded);\n\x7d" ∧
    SolA.arrayGetterDenotation keccak g input = keccak ((input.map g).flatten) ∧
    SolA.arrayGetterDenotation keccak g ([] : List α) = keccak ([] : List Nat) ∧
    SolA.arrayGetterDenotation keccak g ([] : List α) ≠ keccak (g z) := by
  refine ⟨?_, ?_, rfl, ?_⟩
  · unfold SolA.arrayImplA
    rw [sliceDropLast2_append]
  · rw [SolA.arrayGetterDenotation, arrayLoopEncoded_eq_flatten]
  · intro hcontra
    have hempty : ([] : List Nat) = g z := hk hcontra
    exact hz hempty.symm

/-- C9 witness: the semantics applied with the identity hash, a constant
non-empty element encoding and the two-element input `[5, 7]`. -/
theorem array_getter_semantics_witness :
    (fun _ : Nat => [0]) 0 ≠ ([] : List Nat) ∧
    SolA.arrayGetterDenotation (id : List Nat → List Nat) (fun _ : Nat => [0])
        ([] : List Nat) ≠ (id : List Nat → List Nat) ((fun _ : Nat => [0]) 0) :=
  ⟨by decide,
   (array_getter_semantics (qualifiedConfig []) "Plug" id (fun _ : Nat => [0])
      [5, 7] 0 (fun a b h => h) (by decide)).2.2.2⟩

/-- C10 (implicit): whenever the signer generator fires, the emitted signer
accessor takes as payload the first declared field whose name is not the
literal `signature` — regardless of that field's declared type and of how
many other non-signature fields exist — and invokes the digest getter named
after that field's *name* (`get<fieldName>Digest`), not after its declared
type. -/
theorem signer_payload_first_non_signature_field (cfg : Config) (tn : String)
    (fields : List FieldDef) (f : FieldDef)
    (h : fields.find? (fun fd => fd.name != "signature") = some f)
    (hov : cfg.dangerous.useOverloads = false)
    (hid : cfg.dangerous.packetHashName = fun s => s) :
    SolB.dataFieldNameOf fields = f.name ∧
    SolB.signerImplB cfg tn (SolB.dataFieldNameOf fields) =
      "\n    function " ++ ("get" ++ tn ++ "Signer") ++ "(\n        " ++
      cfg.contract.name ++ "Lib." ++ tn ++
      " memory $input\n    ) public view virtual returns (address $signer) \x7b\n        $signer = " ++
      ("get" ++ f.name ++ "Digest") ++ "($input." ++ f.name ++
      ").recover(\n            $input.signature\n        );\n    \x7d" := by
  have hd : SolB.dataFieldNameOf fields = f.name := by
    simp [SolB.dataFieldNameOf, h]
  refine ⟨hd, ?_⟩
  rw [hd]
  simp only [SolB.signerImplB, getSignerGetterName, getDigestGetterName, hov, hid,
    Bool.false_eq_true, if_false]

/-- C10 witness: a type whose fields are `signature`, `plugs : Plugs`,
`extra : uint256` gets a signer that digests `$input.plugs` through
`getplugsDigest` — named after the field name `plugs`, not the type
`Plugs`. -/
theorem signer_payload_first_non_signature_field_witness :
    SolB.dataFieldNameOf
        [⟨"signature", "bytes"⟩, ⟨"plugs", "Plugs"⟩, ⟨"extra", "uint256"⟩] = "plugs" :=
  (signer_payload_first_non_signature_field (qualifiedConfig []) "LivePlugs"
      [⟨"signature", "bytes"⟩, ⟨"plugs", "Plugs"⟩, ⟨"extra", "uint256"⟩]
      ⟨"plugs", "Plugs"⟩ (by decide) rfl rfl).1

set_option maxRecDepth 4096

/-- C1 (code-bug evaluation): at the single-rooted schema `dedupSchema`
(whose primary type `Root` references `Alpha` and `Beta`, so the external
encoder's validation passes and the run reaches the accumulation), the two
distinct types `Alpha` and `Beta` each contain a field of type `Foo[]`,
and the deduplicated getter list returned by generation contains the
`Foo[]` array-hash getter twice — at positions 2 and 4, value-identical in
path and implementation — because the closing `[...new Set(...)]`
deduplicates the freshly allocated tuple objects by identity, not by
resolved name, contradicting the stated (and intended, cf. the `unique*`
variable names) one-getter guarantee. -/
theorem dedup_keeps_duplicate_array_getters :
    ((SolB.getSolidityPacketHashGetters (qualifiedConfig dedupSchema)).map
        (fun l => l.map (fun g => g.path)) =
      Except.ok
        ["/hash-getters/getRootHash.md", "/hash-getters/getAlphaHash.md",
         "/hash-getters/getFooArrayHash.md", "/hash-getters/getBetaHash.md",
         "/hash-getters/getFooArrayHash.md", "/hash-getters/getFooHash.md"]) ∧
    ((SolB.getSolidityPacketHashGetters (qualifiedConfig dedupSchema)).map
        (fun l => l.countP (fun g => g.path == "/hash-getters/getFooArrayHash.md")) =
      Except.ok 2) ∧
    ((SolB.getSolidityPacketHashGetters (qualifiedConfig dedupSchema)).map
        (fun l => decide (l.map (fun g => (g.path, g.impl))).Nodup) =
      Except.ok false) := by
  refine ⟨by rfl, by rfl, by rfl⟩

/-- C2 counterexample: at the schema `danglingSchema`, whose only field
references the undeclared type `Person`, the run does fail before emitting
any artifact — but the failure is the external typed-data encoder's
validation error, which names the offending type and NOT the offending
field (`from` does not occur in it), and no `SchemaResolutionError` exists
in the repository; the core's own per-field encoder would have emitted an
invocation of the undeclared type's getter rather than failing. -/
theorem dangling_reference_counterexample :
    SolA.generateSolidityStructs (qualifiedConfig danglingSchema) =
      Except.error "unknown type: \"Person\"" ∧
    strIncludes "from" "unknown type: \"Person\"" = false ∧
    getEncodedValueFor (qualifiedConfig []) ⟨"from", "Person"⟩ =
      "getPersonHash($input.from)" := by
  refine ⟨by rfl, by decide, by decide⟩

/-- C2 (amended): for a field referencing an undeclared type, generation
fails before emitting any artifact, as claimed — but the failure comes
from the external typed-data encoder's validation, not from a core
`SchemaResolutionError`, and the error names only the offending type, not
the field; the core itself performs no resolution: its per-field encoder
consults only the field and encodes any tag that is not validator-accepted
(declared or not) as an invocation of that type's packet-hash getter. -/
theorem dangling_reference_zero_artifacts (cfg : Config) (nm t : String)
    (h : isTypedDataType t = false) :
    getEncodedValueFor cfg ⟨nm, t⟩ =
      getPacketHashGetterName cfg t ++ "($input." ++ nm ++ ")" ∧
    ∀ (types : Schema) (e : String), typedDataEncoderCheck types = Except.error e →
      SolA.generateSolidityStructs { cfg with types := types } = Except.error e := by
  constructor
  · have hb' : (t == "bytes") = false := by
      cases hbe : t == "bytes" with
      | false => rfl
      | true =>
        have he := eq_of_beq hbe
        subst he
        exact absurd h (by decide)
    have hs' : (t == "string") = false := by
      cases hse : t == "string" with
      | false => rfl
      | true =>
        have he := eq_of_beq hse
        subst he
        exact absurd h (by decide)
    simp [getEncodedValueFor, hb', hs', h]
  · intro types e he
    simp [SolA.generateSolidityStructs, he]

/-- C2 witness: the amended behaviour at the undeclared type `Person` and
the one-type schema `danglingSchema`, on which the external validation
fails with `unknown type` and zero artifacts result. -/
theorem dangling_reference_zero_artifacts_witness :
    isTypedDataType "Person" = false ∧
    getEncodedValueFor (qualifiedConfig []) ⟨"from", "Person"⟩ =
      getPacketHashGetterName (qualifiedConfig []) "Person" ++ "($input." ++ "from" ++ ")" ∧
    SolA.generateSolidityStructs
        { qualifiedConfig [] with types := danglingSchema } =
      Except.error "unknown type: \"Person\"" :=
  ⟨by decide,
   (dangling_reference_zero_artifacts (qualifiedConfig []) "from" "Person"
      (by decide)).1,
   (dangling_reference_zero_artifacts (qualifiedConfig []) "from" "Person"
      (by decide)).2 danglingSchema "unknown type: \"Person\"" (by rfl)⟩

/-- C3 counterexample: an extension schema declaring `EIP712Domain`, a name
the baseline schema also declares, does not make generation fail with a
configuration error — the merge in `generate` is plain concatenation with
no collision check, and the resulting bundle contains the struct
declaration for `EIP712Domain` twice. -/
theorem baseline_collision_counterexample :
    (SolB.generateCombinedStructs (qualifiedConfig collisionSchema)).countP
      (fun s => strIncludes "struct EIP712Domain " s) = 2 := by
  decide

/-- C3 (amended): the baseline/extension merge performs no collision check:
for every extension configuration declaring the baseline type name
`EIP712Domain`, generation succeeds and the combined struct list of the
bundle contains at least two struct declarations for that name (one from
the baseline, one from the extension). -/
theorem baseline_collision_unchecked (cfg : Config)
    (h : ("EIP712Domain" : String) ∈ cfg.types.map Prod.fst) :
    2 ≤ (SolB.generateCombinedStructs cfg).countP
        (fun s => strIncludes "struct EIP712Domain " s) := by
  unfold SolB.generateCombinedStructs
  rw [List.countP_append]
  have h1 : (SolB.getSolidityStructs (SolB.baselineConfig cfg)).countP
      (fun s => strIncludes "struct EIP712Domain " s) = 1 := by
    show (SolB.constantsConfigTypes.map
        (fun q => SolB.structStringB q.1 q.2)).countP
      (fun s => strIncludes "struct EIP712Domain " s) = 1
    decide
  have h2 : 0 < (SolB.getSolidityStructs cfg).countP
      (fun s => strIncludes "struct EIP712Domain " s) := by
    obtain ⟨p, hp, hfst⟩ := List.mem_map.mp h
    refine List.countP_pos_iff.mpr ⟨SolB.structStringB p.1 p.2, ?_, ?_⟩
    · exact List.mem_map_of_mem (fun q => SolB.structStringB q.1 q.2) hp
    · rw [hfst]
      have hm := structStringB_marker "EIP712Domain" p.2
      have he : ("struct " ++ "EIP712Domain" ++ " " : String) =
          "struct EIP712Domain " := by decide
      rw [he] at hm
      exact hm
  omega

/-- C3 witness: the amended statement applied to the concrete colliding
extension schema `collisionSchema`. -/
theorem baseline_collision_unchecked_witness :
    ("EIP712Domain" : String) ∈
      (qualifiedConfig collisionSchema).types.map Prod.fst ∧
    2 ≤ (SolB.generateCombinedStructs (qualifiedConfig collisionSchema)).countP
        (fun s => strIncludes "struct EIP712Domain " s) :=
  ⟨by decide, baseline_collision_unchecked (qualifiedConfig collisionSchema) (by decide)⟩

/-- C5 counterexample: at the single-rooted schema `pairingSchema` (whose
primary type `Root` references `LiveFoo` and `Bar`, so the external
encoder's validation passes and the run reaches the digest/signer
emission), the digest getter for `Foo` is emitted purely because the
naming pattern `Live` ++ `Foo` matches another declared type — no explicit
pairing policy exists — and a signer getter is emitted for `Bar`, a type
with two non-signature fields, neither of which references a
digest-eligible type, contradicting the claimed "exactly one
signature-carrier and exactly one payload field" rule. -/
theorem pairing_policy_counterexample :
    (SolB.getSolidityDigestGetters (qualifiedConfig pairingSchema)).map
        (fun l => l.map Prod.fst) =
      Except.ok ["/digest-getters/getFooDigest.md"] ∧
    (SolB.getSoliditySignerGetters (qualifiedConfig pairingSchema)).map
        (fun l => l.map Prod.fst) =
      Except.ok ["/signer-getters/getLiveFooSigner.md",
                 "/signer-getters/getBarSigner.md"] := by
  refine ⟨by rfl, by rfl⟩

/-- C5 (amended): on every schema the external encoder's validation
accepts, applicability is decided by naming patterns, not by an explicit
pairing policy — a digest getter is emitted exactly for the types `K` such
that `Live` ++ `K` is also declared, and a signer getter exactly for the
types that declare some field named `signature` and whose name with the
first `Live` deleted is also declared, with no constraint on the number or
the types of the remaining fields. -/
theorem pairing_by_naming_pattern (cfg : Config)
    (hov : cfg.dangerous.useOverloads = false)
    (hid : cfg.dangerous.packetHashName = fun s => s)
    (hok : typedDataEncoderCheck cfg.types = Except.ok ()) :
    (SolB.getSolidityDigestGetters cfg).map (fun l => l.map Prod.fst) =
      Except.ok ((SolB.typeKeysOf cfg.types).map
        (fun k => "/digest-getters/" ++ "get" ++ k ++ "Digest" ++ ".md")) ∧
    (SolB.getSoliditySignerGetters cfg).map (fun l => l.map Prod.fst) =
      Except.ok ((cfg.types.filter (fun p =>
          p.2.any (fun f => f.name == "signature") &&
          (SolB.signerKeysOf cfg.types).contains p.1)).map
        (fun p => "/signer-getters/" ++ "get" ++ p.1 ++ "Signer" ++ ".md")) := by
  constructor
  · simp only [SolB.getSolidityDigestGetters, hok, Except.map, Except.ok.injEq]
    unfold SolB.typeKeysOf
    rw [List.filter_congr (fun p hp => contains_filter_keys cfg.types
      (fun k => (cfg.types.map Prod.fst).contains ("Live" ++ k)) p hp)]
    rw [← map_fst_filter (fun k => (cfg.types.map Prod.fst).contains ("Live" ++ k))
      cfg.types]
    simp only [List.map_map]
    apply List.map_congr_left
    intro p hp
    simp [Function.comp, getDigestGetterName, hov, hid, String.append_assoc]
    rw [← String.append_assoc]
    simp
  · simp only [SolB.getSoliditySignerGetters, hok, Except.map, Except.ok.injEq]
    simp only [List.map_map]
    apply List.map_congr_left
    intro p hp
    simp [Function.comp, getSignerGetterName, hov, hid, String.append_assoc]
    rw [← String.append_assoc]
    simp

/-- C5 witness: the naming-pattern rule applied to the concrete
single-rooted schema `pairingSchema` in Qualified mode. -/
theorem pairing_by_naming_pattern_witness :
    (SolB.getSolidityDigestGetters (qualifiedConfig pairingSchema)).map
        (fun l => l.map Prod.fst) =
      Except.ok ((SolB.typeKeysOf pairingSchema).map
        (fun k => "/digest-getters/" ++ "get" ++ k ++ "Digest" ++ ".md")) :=
  (pairing_by_naming_pattern (qualifiedConfig pairingSchema) rfl rfl (by rfl)).1
